import Mathlib

/-!
Shallow embedding of `main.go` of the mkv-5.1to2.1 pipeline.

The program shells out to three external tools (an inspection tool, a
transcode engine and a mux engine) and touches the file system.  Those
effects are modelled by an explicit `World` record carrying the set of
existing files and oracles for the outcome of each external invocation;
every stage additionally returns the list of external `Event`s it
performed, in order, so that claims about "never invoked" / "invoked
once" are statable.
-/

namespace MkvPipeline

/-- TrackInfo stores details of each audio track found in the input file
(`TrackInfo` in main.go, fields `Index`, `Layout`, `Language`, `Title`). -/
structure TrackInfo where
  Index : String
  Layout : String
  Language : String
  Title : String
deriving DecidableEq, Repr

/-- Go's `strings.HasPrefix`, over the character sequences of the strings. -/
def strStartsWith (s pre : String) : Bool :=
  pre.data.isPrefixOf s.data

/-- Go's `strings.HasSuffix`, over the character sequences of the strings. -/
def strEndsWith (s suff : String) : Bool :=
  suff.data.isSuffixOf s.data

/-- Go's `strings.TrimSuffix s suff`: drop `suff` from the end of `s`
when present, otherwise return `s` unchanged. -/
def trimSuffix (s suff : String) : String :=
  if strEndsWith s suff then s.dropRight suff.length else s

/-- Side-car path computed inside `processTrack` (main.go line 103):
`strings.TrimSuffix(inputFile, ".mkv") + "_track" + track.Index + "_enhanced.opus"`. -/
def processTrackEnhancedFile (inputFile idx : String) : String :=
  trimSuffix inputFile ".mkv" ++ "_track" ++ idx ++ "_enhanced.opus"

/-- Side-car path computed inside `mergeTracks` (main.go line 149), the
same expression repeated verbatim in the source. -/
def mergeTracksEnhancedFile (inputFile idx : String) : String :=
  trimSuffix inputFile ".mkv" ++ "_track" ++ idx ++ "_enhanced.opus"

/-- Side-car path computed inside `removeTemporaryFiles` (main.go line 180),
again the same expression repeated verbatim in the source. -/
def removeEnhancedFile (inputFile idx : String) : String :=
  trimSuffix inputFile ".mkv" ++ "_track" ++ idx ++ "_enhanced.opus"

/-- Output path computed in `main` (main.go line 29). -/
def outputFileOf (inputFile : String) : String :=
  trimSuffix inputFile ".mkv" ++ "_enhanced.mkv"

/-- Line parsing loop of `extractTrackInfo` (main.go lines 72-89): split each
line on `|`; a line with at least 3 fields yields one record (index, layout,
language, and title when a 4th field is present); shorter lines are dropped. -/
def extractTracksFromOutput : List String → List TrackInfo
  | [] => []
  | line :: rest =>
    let parts := line.splitOn "|"
    if 3 ≤ parts.length then
      { Index := parts.getD 0 "", Layout := parts.getD 1 "",
        Language := parts.getD 2 "",
        Title := if 3 < parts.length then parts.getD 3 "" else "" }
        :: extractTracksFromOutput rest
    else
      extractTracksFromOutput rest

/-- Go's `bufio.Scanner` with the default line splitter: tokens are the
newline-separated segments, a trailing final newline produces no extra
empty token, and one trailing carriage return is stripped per line. -/
def scanLines (s : String) : List String :=
  let parts := s.splitOn "\n"
  let parts := if parts.getLast? = some "" then parts.dropLast else parts
  parts.map (fun l => trimSuffix l "\r")

/-- Filter-graph selection of `processTrack` (main.go lines 97-102):
layouts beginning with "7.1" get the 7.1 pan formula, everything else the
default formula, both with the 1.5x volume boost. -/
def selectAudioFilter (layout : String) : String :=
  if strStartsWith layout "7.1" then
    "volume=1.5, pan=stereo|FL=FL+0.707*FC+0.5*BL+0.3*SL+0.5*LFE|FR=FR+0.707*FC+0.5*BR+0.3*SR+0.5*LFE"
  else
    "volume=1.5, pan=stereo|FL=FL+0.707*FC+0.707*BL+0.5*LFE|FR=FR+0.707*FC+0.707*BR+0.5*LFE"

/-- Argument list of the per-track transcode invocation (main.go lines 111-122). -/
def transcodeArgs (inputFile : String) (track : TrackInfo) (af enhancedFile : String) :
    List String :=
  ["-i", inputFile,
   "-map", "0:" ++ track.Index,
   "-af", af,
   "-acodec", "libopus", "-b:a", "320k",
   "-vbr", "on",
   "-compression_level", "9",
   "-frame_duration", "20",
   "-application", "audio",
   "-metadata:s:a", "language=" ++ track.Language,
   "-metadata:s:a", "title=2.1 Enhanced",
   "-y", enhancedFile]

/-- One observable external action of the program. -/
inductive Event where
  | probeCall (file : String)
  | transcodeCall (args : List String)
  | muxCall (args : List String)
  | removeCall (file : String)
deriving DecidableEq, Repr

/-- Boolean recognizers for event kinds (used to state claims without binders). -/
def isRemoveCall : Event → Bool
  | Event.removeCall _ => true
  | _ => false

def isMuxCall : Event → Bool
  | Event.muxCall _ => true
  | _ => false

def isTranscodeCall : Event → Bool
  | Event.transcodeCall _ => true
  | _ => false

/-- Outcome oracle for the transcode engine: whether `cmd.Start()` succeeds
and whether `cmd.Wait()` reports exit status 0 for a given argument list. -/
structure Engine where
  startOk : List String → Bool
  waitOk : List String → Bool

/-- Structured error taxonomy of the run. `notFound` is the pre-invocation
stat failure; the two tool errors carry the exec error text and the captured
diagnostic output, as the Go error strings do. -/
inductive PipelineError where
  | notFound (path : String)
  | probeFailed (errMsg : String) (combinedOutput : String)
  | muxFailed (errMsg : String) (capturedStderr : String)
deriving DecidableEq, Repr

/-- External world: the set of existing files plus behaviour oracles for the
three external tools and the file remover. -/
structure World where
  files : List String
  probeOk : Bool
  probeErr : String
  probeOutput : String
  engine : Engine
  muxOk : Bool
  muxErr : String
  muxDiag : String
  removeOk : String → Bool

/-- Result of one extraction stage: the events performed and either the
parsed catalog or the error `main` will print before exiting. -/
structure ExtractOut where
  events : List Event
  result : Except PipelineError (List TrackInfo)

/-- `extractTrackInfo` (main.go lines 57-90): stat the file first (no tool
launched when it does not exist), run the inspection tool, and on non-zero
exit fail carrying the combined output; otherwise parse the output lines. -/
def extractTrackInfo (w : World) (file : String) : ExtractOut :=
  if w.files.contains file then
    if w.probeOk then
      ⟨[Event.probeCall file], Except.ok (extractTracksFromOutput (scanLines w.probeOutput))⟩
    else
      ⟨[Event.probeCall file], Except.error (PipelineError.probeFailed w.probeErr w.probeOutput)⟩
  else
    ⟨[], Except.error (PipelineError.notFound file)⟩

/-- How one worker run ended.  The Go function returns nothing in every
case; this tag only records which exit path was taken. -/
inductive WorkerResult where
  | skippedExisting
  | startFailed
  | waitFailed
  | succeeded
deriving DecidableEq, Repr

/-- Effect of one worker run: events performed, exit path, resulting files. -/
structure WorkerStep where
  events : List Event
  result : WorkerResult
  files : List String
deriving DecidableEq, Repr

/-- `processTrack` (main.go lines 93-142): pick the filter from the layout,
derive the side-car path, skip when it already exists, otherwise launch the
transcode engine; a successful run creates the side-car, any failure is
only logged (no error is returned in any case). -/
def processTrack (eng : Engine) (files : List String) (inputFile : String)
    (track : TrackInfo) : WorkerStep :=
  let af := selectAudioFilter track.Layout
  let enhancedFile := processTrackEnhancedFile inputFile track.Index
  if files.contains enhancedFile then
    ⟨[], WorkerResult.skippedExisting, files⟩
  else
    let args := transcodeArgs inputFile track af enhancedFile
    if eng.startOk args then
      if eng.waitOk args then
        ⟨[Event.transcodeCall args], WorkerResult.succeeded, enhancedFile :: files⟩
      else
        ⟨[Event.transcodeCall args], WorkerResult.waitFailed, files⟩
    else
      ⟨[], WorkerResult.startFailed, files⟩

/-- Effect of the fan-out stage: all events, one result per worker, files. -/
structure FanOut where
  events : List Event
  results : List WorkerResult
  files : List String
deriving DecidableEq, Repr

/-- The fan-out loop of `main` (main.go lines 38-43): one worker per catalog
entry, all of them run, none can abort the others, and `wg.Wait()` joins
them all before the pipeline proceeds.  Workers own disjoint side-car paths,
so the concurrent execution is modelled by running them in catalog order. -/
def runWorkers (eng : Engine) (files : List String) (inputFile : String) :
    List TrackInfo → FanOut
  | [] => ⟨[], [], files⟩
  | t :: rest =>
    let s := processTrack eng files inputFile t
    let f := runWorkers eng s.files inputFile rest
    ⟨s.events ++ f.events, s.result :: f.results, f.files⟩

/-- Mux argument construction of `mergeTracks` (main.go lines 146-162),
mirroring the Go appends: original input, one `-i` per side-car in catalog
order, video and optional-subtitle maps, then per track the original audio
sub-stream followed by the enhanced input, all stream-copied. -/
def mergeTracksArgs (inputFile outputFile : String) (tracks : List TrackInfo) :
    List String :=
  let args := ["-i", inputFile]
  let args := tracks.foldl
    (fun a t => a ++ ["-i", mergeTracksEnhancedFile inputFile t.Index]) args
  let args := args ++ ["-map", "0:v"]
  let args := args ++ ["-map", "0:s?"]
  let args := (List.range tracks.length).foldl
    (fun a i =>
      (a ++ ["-map", "0:a:" ++ toString i, "-c:a", "copy"])
        ++ ["-map", toString (1 + i) ++ ":a", "-c:a", "copy"]) args
  args ++ ["-c:v", "copy", "-c:s", "copy", "-y", outputFile]

/-- Effect of the mux stage. -/
structure MergeOut where
  events : List Event
  result : Except PipelineError Unit
deriving Repr

/-- `mergeTracks` (main.go lines 145-174): one mux invocation; on non-zero
exit the error carries the captured stderr. -/
def mergeTracks (w : World) (inputFile outputFile : String)
    (tracks : List TrackInfo) : MergeOut :=
  let args := mergeTracksArgs inputFile outputFile tracks
  if w.muxOk then
    ⟨[Event.muxCall args], Except.ok ()⟩
  else
    ⟨[Event.muxCall args], Except.error (PipelineError.muxFailed w.muxErr w.muxDiag)⟩

/-- Effect of the cleanup stage: deletions attempted (in order), files
actually deleted, and the first failure when one occurred. -/
structure CleanupOut where
  events : List Event
  deleted : List String
  failure : Option String
deriving DecidableEq, Repr

/-- `removeTemporaryFiles` (main.go lines 177-190): delete the side-cars in
catalog order, returning the first failure without attempting the rest. -/
def removeTemporaryFiles (removeOk : String → Bool) (inputFile : String) :
    List TrackInfo → CleanupOut
  | [] => ⟨[], [], none⟩
  | t :: rest =>
    let enhancedFile := removeEnhancedFile inputFile t.Index
    if removeOk enhancedFile then
      let c := removeTemporaryFiles removeOk inputFile rest
      ⟨Event.removeCall enhancedFile :: c.events, enhancedFile :: c.deleted, c.failure⟩
    else
      ⟨[Event.removeCall enhancedFile], [], some enhancedFile⟩

/-- Overall run outcome: `aborted e` is `os.Exit(1)` after printing `e`,
`completed out` is the final "Enhanced MKV generated" success line. -/
inductive RunResult where
  | aborted (err : PipelineError)
  | completed (outputFile : String)
deriving DecidableEq, Repr

/-- Everything observable about a run. -/
structure RunTrace where
  events : List Event
  result : RunResult
  files : List String
deriving DecidableEq, Repr

/-- `main` (main.go lines 21-54): extract, fan out the workers, join, mux,
then clean up — with the cleanup stage's return value discarded. -/
def runMain (w : World) (inputFile : String) : RunTrace :=
  let outputFile := outputFileOf inputFile
  let ex := extractTrackInfo w inputFile
  match ex.result with
  | Except.error err => ⟨ex.events, RunResult.aborted err, w.files⟩
  | Except.ok trackInfos =>
    let fo := runWorkers w.engine w.files inputFile trackInfos
    let mo := mergeTracks w inputFile outputFile trackInfos
    match mo.result with
    | Except.error err =>
      ⟨ex.events ++ fo.events ++ mo.events, RunResult.aborted err, fo.files⟩
    | Except.ok _ =>
      let co := removeTemporaryFiles w.removeOk inputFile trackInfos
      ⟨ex.events ++ fo.events ++ mo.events ++ co.events,
       RunResult.completed outputFile,
       fo.files.filter (fun f => (co.deleted.contains f) = false)⟩

/-! ## Spec-side definitions

The following definitions transcribe the SPEC's wording (not the source);
the refinement claims compare them with the source embeddings above. -/

/-- Spec wording for the side-car path: "the input path with a trailing
`.mkv` removed (the full input path is used unchanged as the stem when it
does not end in `.mkv`) followed by `_track`, the descriptor's index string
verbatim, and `_enhanced.opus`". -/
def specSideCarPath (inputFile idx : String) : String :=
  (if strEndsWith inputFile ".mkv" then inputFile.dropRight 4 else inputFile)
    ++ "_track" ++ idx ++ "_enhanced.opus"

/-- Spec wording for a well-formed inspection line: at least 3 pipe-separated
fields. -/
def specWellFormedLine (line : String) : Bool :=
  decide (3 ≤ (line.splitOn "|").length)

/-- Spec wording for the descriptor built from a well-formed line: field 0 =
index, field 1 = layout, field 2 = language, field 3 = title when present,
otherwise the empty string. -/
def specTrackOfLine (line : String) : TrackInfo :=
  let fields := line.splitOn "|"
  ⟨fields.getD 0 "", fields.getD 1 "", fields.getD 2 "", fields.getD 3 ""⟩

/-- Concatenation of a list of lists (kept explicit so the spec-side remux
sequence below is spelled out segment by segment). -/
def concatAll : List (List String) → List String
  | [] => []
  | l :: ls => l ++ concatAll ls

/-- Spec wording for the mux argument sequence: input #0 = the original
file, inputs #1..#N = the side-cars in catalog order, the video map and the
optional subtitle map from input #0, then for each catalog position i the
stream-copy map of original audio sub-stream i immediately followed by the
stream-copy map of side-car input #(i+1), and finally the copy directives
and the overwritten output path. -/
def specRemuxArgs (inputFile outputFile : String) (tracks : List TrackInfo) :
    List String :=
  ["-i", inputFile]
    ++ concatAll (tracks.map (fun t => ["-i", specSideCarPath inputFile t.Index]))
    ++ ["-map", "0:v", "-map", "0:s?"]
    ++ concatAll ((List.range tracks.length).map (fun i =>
         ["-map", "0:a:" ++ toString i, "-c:a", "copy",
          "-map", toString (i + 1) ++ ":a", "-c:a", "copy"]))
    ++ ["-c:v", "copy", "-c:s", "copy", "-y", outputFile]

/-! ## Concrete worlds used by the witnesses -/

/-- Engine whose invocations all start and succeed. -/
def engineAllOk : Engine := ⟨fun _ => true, fun _ => true⟩

/-- Engine whose invocations start but exit non-zero (a failing transcode). -/
def engineWaitFails : Engine := ⟨fun _ => true, fun _ => false⟩

/-- A world with an existing input, a two-track probe catalog, a failing
transcode engine and a failing mux engine. -/
def worldMuxFails : World :=
  ⟨["movie.mkv"], true, "", "1|5.1|eng|Main\n2|7.1|jpn", engineWaitFails,
   false, "exit status 1", "Invalid argument", fun _ => true⟩

/-- A world where everything up to and including the mux succeeds but every
side-car deletion fails. -/
def worldCleanupFails : World :=
  ⟨["movie.mkv"], true, "", "1|5.1|eng|Main\n2|7.1|jpn", engineAllOk,
   true, "", "", fun _ => false⟩

/-- A world whose input file does not exist. -/
def worldNoInput : World :=
  ⟨[], true, "", "", engineAllOk, true, "", "", fun _ => true⟩

/-- A deletion oracle that fails exactly on track 2's side-car of
"movie.mkv". -/
def removeFailsOnTrack2 : String → Bool :=
  fun f => f != "movie_track2_enhanced.opus"

/-- A world whose inspection tool fails. -/
def worldProbeFails : World :=
  ⟨["movie.mkv"], false, "exit status 1", "movie.mkv: Invalid data",
   engineAllOk, true, "", "", fun _ => true⟩

/-! ## Helper lemmas -/

theorem trimSuffix_mkv (s : String) :
    trimSuffix s ".mkv" = if strEndsWith s ".mkv" then s.dropRight 4 else s := rfl

theorem processTrackEnhancedFile_eq_spec (inputFile idx : String) :
    processTrackEnhancedFile inputFile idx = specSideCarPath inputFile idx := by
  unfold processTrackEnhancedFile specSideCarPath
  rw [trimSuffix_mkv]

theorem mergeTracksEnhancedFile_eq_spec (inputFile idx : String) :
    mergeTracksEnhancedFile inputFile idx = specSideCarPath inputFile idx := by
  unfold mergeTracksEnhancedFile specSideCarPath
  rw [trimSuffix_mkv]

theorem removeEnhancedFile_eq_spec (inputFile idx : String) :
    removeEnhancedFile inputFile idx = specSideCarPath inputFile idx := by
  unfold removeEnhancedFile specSideCarPath
  rw [trimSuffix_mkv]

theorem foldl_append_concatAll {α : Type} (g : α → List String) :
    ∀ (xs : List α) (acc : List String),
      xs.foldl (fun a x => a ++ g x) acc = acc ++ concatAll (xs.map g) := by
  intro xs
  induction xs with
  | nil => intro acc; simp [concatAll]
  | cons x xs ih =>
    intro acc
    simp only [List.foldl_cons, List.map_cons, concatAll]
    rw [ih, List.append_assoc]

theorem processTrack_events_sub (eng : Engine) (files : List String)
    (inputFile : String) (t : TrackInfo) (e : Event)
    (h : e ∈ (processTrack eng files inputFile t).events) :
    e = Event.transcodeCall
      (transcodeArgs inputFile t (selectAudioFilter t.Layout)
        (processTrackEnhancedFile inputFile t.Index)) := by
  by_cases hc : processTrackEnhancedFile inputFile t.Index ∈ files
  · simp [processTrack, hc] at h
  · cases hs : eng.startOk (transcodeArgs inputFile t (selectAudioFilter t.Layout)
        (processTrackEnhancedFile inputFile t.Index)) with
    | false => simp [processTrack, hc, hs] at h
    | true =>
      cases hw : eng.waitOk (transcodeArgs inputFile t (selectAudioFilter t.Layout)
          (processTrackEnhancedFile inputFile t.Index)) with
      | false => simp [processTrack, hc, hs, hw] at h; exact h
      | true => simp [processTrack, hc, hs, hw] at h; exact h

theorem runWorkers_events_transcode (eng : Engine) (inputFile : String) :
    ∀ (tracks : List TrackInfo) (files : List String) (e : Event),
      e ∈ (runWorkers eng files inputFile tracks).events → isTranscodeCall e = true := by
  intro tracks
  induction tracks with
  | nil => intro files e h; simp [runWorkers] at h
  | cons t rest ih =>
    intro files e h
    simp only [runWorkers, List.mem_append] at h
    rcases h with h | h
    · rw [processTrack_events_sub eng files inputFile t e h]; rfl
    · exact ih _ e h

theorem runWorkers_results_length (eng : Engine) (inputFile : String) :
    ∀ (tracks : List TrackInfo) (files : List String),
      ((runWorkers eng files inputFile tracks).results).length = tracks.length := by
  intro tracks
  induction tracks with
  | nil => intro files; rfl
  | cons t rest ih => intro files; simp [runWorkers, ih]

theorem removeTemporaryFiles_events_remove (removeOk : String → Bool) (inputFile : String) :
    ∀ (tracks : List TrackInfo) (e : Event),
      e ∈ (removeTemporaryFiles removeOk inputFile tracks).events →
        isRemoveCall e = true := by
  intro tracks
  induction tracks with
  | nil => intro e h; simp [removeTemporaryFiles] at h
  | cons t rest ih =>
    intro e h
    cases hr : removeOk (removeEnhancedFile inputFile t.Index) with
    | true =>
      simp [removeTemporaryFiles, hr] at h
      rcases h with h | h
      · rw [h]; rfl
      · exact ih e h
    | false =>
      simp [removeTemporaryFiles, hr] at h
      rw [h]; rfl

/-! ## Claims -/

/-- C10: the Worker, the Remux Assembler and Side-Car Cleanup all compute
the identical side-car path, namely the input path with a trailing ".mkv"
removed (unchanged when it does not end in ".mkv") followed by "_track",
the index string verbatim, and "_enhanced.opus". -/
theorem sidecar_paths_agree (inputFile idx : String) :
    processTrackEnhancedFile inputFile idx = mergeTracksEnhancedFile inputFile idx
  ∧ mergeTracksEnhancedFile inputFile idx = removeEnhancedFile inputFile idx
  ∧ processTrackEnhancedFile inputFile idx = specSideCarPath inputFile idx
  ∧ (strEndsWith inputFile ".mkv" = false →
      processTrackEnhancedFile inputFile idx
        = inputFile ++ "_track" ++ idx ++ "_enhanced.opus") := by
  refine ⟨rfl, rfl, processTrackEnhancedFile_eq_spec inputFile idx, ?_⟩
  intro h
  unfold processTrackEnhancedFile
  rw [trimSuffix_mkv, h]
  simp

/-- Witness for C10 at a concrete input that does not end in ".mkv". -/
theorem sidecar_paths_agree_witness :
    (strEndsWith "clip.webm" ".mkv" = false)
  ∧ processTrackEnhancedFile "clip.webm" "2" = "clip.webm_track2_enhanced.opus" :=
  ⟨by decide, (sidecar_paths_agree "clip.webm" "2").2.2.2 (by decide)⟩

/-- C2: the Extractor splits each line on "|" and returns, in input order,
exactly one descriptor per line with at least 3 fields (index, layout,
language, optional title); lines with fewer than 3 fields are dropped, so
K well-formed lines yield exactly K descriptors. -/
theorem extractTracks_spec (lines : List String) :
    extractTracksFromOutput lines
      = (lines.filter specWellFormedLine).map specTrackOfLine
  ∧ (extractTracksFromOutput lines).length
      = (lines.filter specWellFormedLine).length := by
  have h : extractTracksFromOutput lines
      = (lines.filter specWellFormedLine).map specTrackOfLine := by
    induction lines with
    | nil => rfl
    | cons line rest ih =>
      simp only [extractTracksFromOutput, List.filter_cons]
      by_cases h3 : 3 ≤ (line.splitOn "|").length
      · have hfilter : specWellFormedLine line = true := by
          simp [specWellFormedLine, h3]
        have htitle :
            (if 3 < (line.splitOn "|").length then (line.splitOn "|").getD 3 "" else "")
              = (line.splitOn "|").getD 3 "" := by
          rcases Nat.lt_or_ge 3 (line.splitOn "|").length with h4 | h4
          · rw [if_pos h4]
          · rw [if_neg (Nat.not_lt.mpr h4)]
            exact (List.getD_eq_default _ _ h4).symm
        rw [if_pos h3, hfilter, if_pos rfl, List.map_cons, ih, htitle]
        rfl
      · have hfilter : specWellFormedLine line = false := by
          simp [specWellFormedLine, h3]
        rw [if_neg h3, hfilter]
        simpa using ih
  exact ⟨h, by rw [h]; simp⟩

/-- C3: the Worker's filter-graph selection is a total function of the
channel layout alone: layouts beginning with "7.1" select the fixed
7.1-to-stereo pan formula with the 1.5x boost, every other layout
(including the empty string) selects the fixed default formula with the
same boost; and every transcode invocation the Worker performs carries
exactly the filter selected from its descriptor's layout. -/
theorem worker_filter_selection (t : TrackInfo) :
    (strStartsWith t.Layout "7.1" = true →
      selectAudioFilter t.Layout =
        "volume=1.5, pan=stereo|FL=FL+0.707*FC+0.5*BL+0.3*SL+0.5*LFE|FR=FR+0.707*FC+0.5*BR+0.3*SR+0.5*LFE")
  ∧ (strStartsWith t.Layout "7.1" = false →
      selectAudioFilter t.Layout =
        "volume=1.5, pan=stereo|FL=FL+0.707*FC+0.707*BL+0.5*LFE|FR=FR+0.707*FC+0.707*BR+0.5*LFE")
  ∧ (∀ (eng : Engine) (files : List String) (inputFile : String) (e : Event),
      e ∈ (processTrack eng files inputFile t).events →
        e = Event.transcodeCall
          (transcodeArgs inputFile t (selectAudioFilter t.Layout)
            (processTrackEnhancedFile inputFile t.Index))) := by
  refine ⟨fun h => by simp [selectAudioFilter, h], fun h => by simp [selectAudioFilter, h], ?_⟩
  intro eng files inputFile e h
  exact processTrack_events_sub eng files inputFile t e h

/-- C1: the Remux Assembler's argument sequence declares input #0 = the
original file, inputs #1..#N = the side-cars in catalog order, maps the
video stream and (optionally) the subtitle streams from input #0, and then
for each catalog position i appends the stream-copy mapping of original
audio sub-stream i immediately followed by the stream-copy mapping of the
side-car from input #(i+1); proved for every catalog, hence in particular
for N = 0, 1, 3. -/
theorem remux_args_interleave (inputFile outputFile : String)
    (tracks : List TrackInfo) :
    mergeTracksArgs inputFile outputFile tracks
      = specRemuxArgs inputFile outputFile tracks := by
  have hstep : (fun (a : List String) (i : Nat) =>
      (a ++ ["-map", "0:a:" ++ toString i, "-c:a", "copy"])
        ++ ["-map", toString (1 + i) ++ ":a", "-c:a", "copy"])
      = fun (a : List String) (i : Nat) =>
          a ++ (["-map", "0:a:" ++ toString i, "-c:a", "copy"]
                 ++ ["-map", toString (i + 1) ++ ":a", "-c:a", "copy"]) := by
    funext a i
    rw [List.append_assoc, Nat.add_comm 1 i]
  unfold mergeTracksArgs specRemuxArgs
  dsimp only
  rw [hstep,
    foldl_append_concatAll
      (fun i : Nat => ["-map", "0:a:" ++ toString i, "-c:a", "copy"]
        ++ ["-map", toString (i + 1) ++ ":a", "-c:a", "copy"]),
    foldl_append_concatAll
      (fun t : TrackInfo => ["-i", mergeTracksEnhancedFile inputFile t.Index])]
  simp [List.append_assoc, mergeTracksEnhancedFile_eq_spec]

/-- C4: the Worker is idempotent: when the side-car already exists it
performs no transcode invocation, leaves the file set unchanged and takes
the skip path; consequently a second run after a first run that skipped or
succeeded performs no invocation and changes nothing. -/
theorem worker_idempotent (eng : Engine) (files : List String)
    (inputFile : String) (t : TrackInfo) :
    (files.contains (processTrackEnhancedFile inputFile t.Index) = true →
      processTrack eng files inputFile t
        = ⟨[], WorkerResult.skippedExisting, files⟩)
  ∧ ((processTrack eng files inputFile t).result = WorkerResult.skippedExisting
        ∨ (processTrack eng files inputFile t).result = WorkerResult.succeeded →
      processTrack eng (processTrack eng files inputFile t).files inputFile t
        = ⟨[], WorkerResult.skippedExisting,
            (processTrack eng files inputFile t).files⟩) := by
  constructor
  · intro h
    have h' : processTrackEnhancedFile inputFile t.Index ∈ files := by simpa using h
    simp [processTrack, h']
  · intro hres
    by_cases hc : processTrackEnhancedFile inputFile t.Index ∈ files
    · simp [processTrack, hc]
    · cases hs : eng.startOk (transcodeArgs inputFile t (selectAudioFilter t.Layout)
          (processTrackEnhancedFile inputFile t.Index)) with
      | false => exfalso; simp [processTrack, hc, hs] at hres
      | true =>
        cases hw : eng.waitOk (transcodeArgs inputFile t (selectAudioFilter t.Layout)
            (processTrackEnhancedFile inputFile t.Index)) with
        | false => exfalso; simp [processTrack, hc, hs, hw] at hres
        | true =>
          have hfiles : (processTrack eng files inputFile t).files
              = processTrackEnhancedFile inputFile t.Index :: files := by
            simp [processTrack, hc, hs, hw]
          rw [hfiles]
          simp [processTrack]

/-- Witness for C4: a concrete world in which the side-car already exists. -/
theorem worker_idempotent_witness :
    (["movie_track1_enhanced.opus"].contains
        (processTrackEnhancedFile "movie.mkv" "1") = true)
  ∧ processTrack engineAllOk ["movie_track1_enhanced.opus"] "movie.mkv"
        ⟨"1", "5.1", "eng", ""⟩
      = ⟨[], WorkerResult.skippedExisting, ["movie_track1_enhanced.opus"]⟩ :=
  ⟨by decide,
   (worker_idempotent engineAllOk ["movie_track1_enhanced.opus"] "movie.mkv"
     ⟨"1", "5.1", "eng", ""⟩).1 (by decide)⟩

/-- C5: transcode failures are absorbed inside the Worker: whatever the
transcode engine does, every catalog entry yields a completed worker, the
pipeline still performs exactly one mux invocation with the full argument
sequence, and the run ends in the mux stage's own outcome. -/
theorem worker_failure_absorbed (w : World) (inputFile : String)
    (h1 : w.files.contains inputFile = true) (h2 : w.probeOk = true) :
    ((runWorkers w.engine w.files inputFile
        (extractTracksFromOutput (scanLines w.probeOutput))).results).length
      = (extractTracksFromOutput (scanLines w.probeOutput)).length
  ∧ (runMain w inputFile).events.filter isMuxCall
      = [Event.muxCall (mergeTracksArgs inputFile (outputFileOf inputFile)
          (extractTracksFromOutput (scanLines w.probeOutput)))]
  ∧ ((runMain w inputFile).result
        = RunResult.aborted (PipelineError.muxFailed w.muxErr w.muxDiag)
      ∨ (runMain w inputFile).result
          = RunResult.completed (outputFileOf inputFile)) := by
  have h1' : inputFile ∈ w.files := by simpa using h1
  have hworkers : ∀ (files : List String),
      (runWorkers w.engine files inputFile
        (extractTracksFromOutput (scanLines w.probeOutput))).events.filter isMuxCall
        = [] := by
    intro files
    rw [List.filter_eq_nil_iff]
    intro e he
    have ht := runWorkers_events_transcode w.engine inputFile _ _ e he
    cases e <;> simp_all [isTranscodeCall, isMuxCall]
  have hcleanup : ∀ (tracks : List TrackInfo),
      (removeTemporaryFiles w.removeOk inputFile tracks).events.filter isMuxCall
        = [] := by
    intro tracks
    rw [List.filter_eq_nil_iff]
    intro e he
    have ht := removeTemporaryFiles_events_remove w.removeOk inputFile tracks e he
    cases e <;> simp_all [isRemoveCall, isMuxCall]
  refine ⟨runWorkers_results_length _ _ _ _, ?_, ?_⟩
  · unfold runMain extractTrackInfo mergeTracks
    by_cases hm : w.muxOk <;>
      simp [h1', h2, hm, List.filter_append, hworkers, hcleanup, isMuxCall]
  · unfold runMain extractTrackInfo mergeTracks
    by_cases hm : w.muxOk <;> simp [h1', h2, hm]

/-- Witness for C5: a concrete world whose transcode engine fails on every
track and whose mux engine fails as well; the run still reaches the mux
stage and ends with the mux stage's outcome. -/
theorem worker_failure_absorbed_witness :
    (worldMuxFails.files.contains "movie.mkv" = true)
  ∧ (worldMuxFails.probeOk = true)
  ∧ ((runMain worldMuxFails "movie.mkv").result
        = RunResult.aborted
            (PipelineError.muxFailed worldMuxFails.muxErr worldMuxFails.muxDiag)
      ∨ (runMain worldMuxFails "movie.mkv").result
          = RunResult.completed (outputFileOf "movie.mkv")) :=
  ⟨by decide, rfl,
   (worker_failure_absorbed worldMuxFails "movie.mkv" (by decide) rfl).2.2⟩

/-- C6: when the mux engine exits non-zero the run aborts carrying the
captured diagnostic output, no deletion is ever attempted, and the file
set of the run is exactly the file set as it stood before the remux
attempt. -/
theorem mux_failure_skips_cleanup (w : World) (inputFile : String)
    (h1 : w.files.contains inputFile = true) (h2 : w.probeOk = true)
    (h3 : w.muxOk = false) :
    (runMain w inputFile).result
        = RunResult.aborted (PipelineError.muxFailed w.muxErr w.muxDiag)
  ∧ (runMain w inputFile).events.filter isRemoveCall = []
  ∧ (runMain w inputFile).files
      = (runWorkers w.engine w.files inputFile
          (extractTracksFromOutput (scanLines w.probeOutput))).files := by
  have h1' : inputFile ∈ w.files := by simpa using h1
  have hworkers :
      (runWorkers w.engine w.files inputFile
        (extractTracksFromOutput (scanLines w.probeOutput))).events.filter isRemoveCall
        = [] := by
    rw [List.filter_eq_nil_iff]
    intro e he
    have ht := runWorkers_events_transcode w.engine inputFile _ _ e he
    cases e <;> simp_all [isTranscodeCall, isRemoveCall]
  unfold runMain extractTrackInfo mergeTracks
  simp [h1', h2, h3, List.filter_append, hworkers, isRemoveCall]

/-- Witness for C6: the concrete failing-mux world. -/
theorem mux_failure_skips_cleanup_witness :
    (worldMuxFails.files.contains "movie.mkv" = true)
  ∧ (worldMuxFails.probeOk = true)
  ∧ (worldMuxFails.muxOk = false)
  ∧ (runMain worldMuxFails "movie.mkv").result
      = RunResult.aborted
          (PipelineError.muxFailed worldMuxFails.muxErr worldMuxFails.muxDiag) :=
  ⟨by decide, rfl, rfl,
   (mux_failure_skips_cleanup worldMuxFails "movie.mkv" (by decide) rfl rfl).1⟩

/-- C7: Side-Car Cleanup deletes in catalog order and stops at the first
failure: with 3 tracks whose 2nd deletion fails, the 1st side-car is
deleted, the failure names the 2nd, the 3rd deletion is never attempted
and the 3rd side-car stays undeleted. -/
theorem cleanup_short_circuit (removeOk : String → Bool) (inputFile : String)
    (t1 t2 t3 : TrackInfo)
    (h1 : removeOk (removeEnhancedFile inputFile t1.Index) = true)
    (h2 : removeOk (removeEnhancedFile inputFile t2.Index) = false)
    (h3 : removeEnhancedFile inputFile t3.Index
        ≠ removeEnhancedFile inputFile t1.Index) :
    removeTemporaryFiles removeOk inputFile [t1, t2, t3]
      = ⟨[Event.removeCall (removeEnhancedFile inputFile t1.Index),
          Event.removeCall (removeEnhancedFile inputFile t2.Index)],
         [removeEnhancedFile inputFile t1.Index],
         some (removeEnhancedFile inputFile t2.Index)⟩
  ∧ removeEnhancedFile inputFile t3.Index
      ∉ (removeTemporaryFiles removeOk inputFile [t1, t2, t3]).deleted := by
  have he : removeTemporaryFiles removeOk inputFile [t1, t2, t3]
      = ⟨[Event.removeCall (removeEnhancedFile inputFile t1.Index),
          Event.removeCall (removeEnhancedFile inputFile t2.Index)],
         [removeEnhancedFile inputFile t1.Index],
         some (removeEnhancedFile inputFile t2.Index)⟩ := by
    simp [removeTemporaryFiles, h1, h2]
  refine ⟨he, ?_⟩
  rw [he]
  simp [h3]

/-- Witness for C7: deletion fails exactly on track 2's side-car. -/
theorem cleanup_short_circuit_witness :
    (removeFailsOnTrack2 (removeEnhancedFile "movie.mkv" "1") = true)
  ∧ (removeFailsOnTrack2 (removeEnhancedFile "movie.mkv" "2") = false)
  ∧ (removeEnhancedFile "movie.mkv" "3" ≠ removeEnhancedFile "movie.mkv" "1")
  ∧ removeTemporaryFiles removeFailsOnTrack2 "movie.mkv"
        [⟨"1", "5.1", "eng", ""⟩, ⟨"2", "7.1", "jpn", ""⟩, ⟨"3", "5.1", "deu", ""⟩]
      = ⟨[Event.removeCall (removeEnhancedFile "movie.mkv" "1"),
          Event.removeCall (removeEnhancedFile "movie.mkv" "2")],
         [removeEnhancedFile "movie.mkv" "1"],
         some (removeEnhancedFile "movie.mkv" "2")⟩ :=
  ⟨by decide, by decide, by decide,
   (cleanup_short_circuit removeFailsOnTrack2 "movie.mkv"
     ⟨"1", "5.1", "eng", ""⟩ ⟨"2", "7.1", "jpn", ""⟩ ⟨"3", "5.1", "deu", ""⟩
     (by decide) (by decide) (by decide)).1⟩

/-- C8: a cleanup failure after a successful mux does not change the run's
outcome: whenever the mux succeeds, the run reports successful completion
with the output path, whatever the deletions do. -/
theorem cleanup_failure_keeps_success (w : World) (inputFile : String)
    (h1 : w.files.contains inputFile = true) (h2 : w.probeOk = true)
    (h3 : w.muxOk = true) :
    (runMain w inputFile).result = RunResult.completed (outputFileOf inputFile) := by
  have h1' : inputFile ∈ w.files := by simpa using h1
  unfold runMain extractTrackInfo mergeTracks
  simp [h1', h2, h3]

/-- Witness for C8: a world where every deletion fails yet the run
completes successfully. -/
theorem cleanup_failure_keeps_success_witness :
    (worldCleanupFails.files.contains "movie.mkv" = true)
  ∧ (worldCleanupFails.probeOk = true)
  ∧ (worldCleanupFails.muxOk = true)
  ∧ (worldCleanupFails.removeOk "movie_track1_enhanced.opus" = false)
  ∧ (runMain worldCleanupFails "movie.mkv").result
      = RunResult.completed (outputFileOf "movie.mkv") :=
  ⟨by decide, rfl, rfl, rfl,
   cleanup_failure_keeps_success worldCleanupFails "movie.mkv" (by decide) rfl rfl⟩

/-- C9: the Extractor fails with the not-found error when the input does
not exist, without launching the inspection tool (the run performs no
events at all); and when the tool itself fails, the run performs exactly
the one inspection call, aborts carrying the combined output, and no track
is processed. -/
theorem extract_failure_aborts (w : World) (inputFile : String) :
    (w.files.contains inputFile = false →
      runMain w inputFile
        = ⟨[], RunResult.aborted (PipelineError.notFound inputFile), w.files⟩)
  ∧ (w.files.contains inputFile = true → w.probeOk = false →
      runMain w inputFile
        = ⟨[Event.probeCall inputFile],
           RunResult.aborted (PipelineError.probeFailed w.probeErr w.probeOutput),
           w.files⟩) := by
  constructor
  · intro h
    have h' : inputFile ∉ w.files := by simpa using h
    simp [runMain, extractTrackInfo, h']
  · intro ha hb
    have ha' : inputFile ∈ w.files := by simpa using ha
    simp [runMain, extractTrackInfo, ha', hb]

/-- Witness for C9: a world without the input file and a world whose
inspection tool fails. -/
theorem extract_failure_aborts_witness :
    (worldNoInput.files.contains "movie.mkv" = false)
  ∧ runMain worldNoInput "movie.mkv"
      = ⟨[], RunResult.aborted (PipelineError.notFound "movie.mkv"),
          worldNoInput.files⟩
  ∧ (worldProbeFails.files.contains "movie.mkv" = true)
  ∧ (worldProbeFails.probeOk = false)
  ∧ runMain worldProbeFails "movie.mkv"
      = ⟨[Event.probeCall "movie.mkv"],
         RunResult.aborted
           (PipelineError.probeFailed worldProbeFails.probeErr
             worldProbeFails.probeOutput),
         worldProbeFails.files⟩ :=
  ⟨rfl, (extract_failure_aborts worldNoInput "movie.mkv").1 rfl,
   by decide, rfl,
   (extract_failure_aborts worldProbeFails "movie.mkv").2 (by decide) rfl⟩

/-- Witness for C3 at the concrete layouts "7.1(wide)" and "". -/
theorem worker_filter_selection_witness :
    selectAudioFilter "7.1(wide)" =
      "volume=1.5, pan=stereo|FL=FL+0.707*FC+0.5*BL+0.3*SL+0.5*LFE|FR=FR+0.707*FC+0.5*BR+0.3*SR+0.5*LFE"
  ∧ selectAudioFilter "" =
      "volume=1.5, pan=stereo|FL=FL+0.707*FC+0.707*BL+0.5*LFE|FR=FR+0.707*FC+0.707*BR+0.5*LFE" :=
  ⟨(worker_filter_selection ⟨"1", "7.1(wide)", "eng", ""⟩).1 (by decide),
   (worker_filter_selection ⟨"1", "", "eng", ""⟩).2.1 (by decide)⟩

end MkvPipeline
